import Mathlib

/-!
Verification development for the output-side buffer/backpressure subsystem of
the Pothos streaming framework (`include/Pothos/Framework/OutputPort.hpp`).

The repository ships only the interface header: every method body of
`Pothos::OutputPort` (produce, popElements, popBuffer, getBuffer, postMessage,
the buffer/token manager helpers) is declared but not implemented under `src/`.
The definitions below are therefore modelled from the specification document
(spec.md) and from the doc comments of the header, with the header's member
names kept where Lean allows.

Conventions of the shallow embedding:
* machine integers become `Nat` (sizes, counters) or `Int` (the port index,
  which uses -1 as a sentinel);
* a C++ method that mutates the port becomes a function
  `OutputPort → ... → OutputPort × result`;
* a method that can throw returns an `Option PortError` (for `void` methods)
  or an `Except PortError value` alongside the successor state;
* blocking ("stall until a credit is released") is modelled as a step system:
  a call that would block returns the unchanged token state and a `false`
  completion flag, and completes via a later retry step after a release.
-/

namespace PothosSpec

/-- Modelled from the spec: the error taxonomy of §7.  A contract violation
(`produce` beyond the available elements) is fatal; resource exhaustion is
raised only when the underlying allocator cannot satisfy a request. -/
inductive PortError where
  | contractViolation
  | resourceExhaustion
deriving DecidableEq

/-- Modelled from the spec: a Buffer Chunk (§3) — a view over a contiguous
memory region with a length in bytes and an element-size tag.  `allocId`
identifies the underlying allocation (two chunks share an allocation exactly
when their `allocId`s agree) and `data` holds the bytes of the view. -/
structure BufferChunk where
  allocId : Nat
  length : Nat
  elemSize : Nat
  data : List Nat
deriving DecidableEq

/-- Modelled from the spec: the slice of an input port's state that the
read-before-write donation path (§4.3) consults — the chunk the input port
currently holds and the number of outstanding references to it. -/
structure InputPortState where
  chunk : BufferChunk
  refCount : Nat
deriving DecidableEq

/-- Modelled from the spec: the state of one `Pothos::OutputPort` (§3), with
the header's private members kept under their names (without the leading
underscore).  The Token Manager (`_tokenManager`) is inlined as the triple
`tokenCapacity`/`tokenCredits`/`tokenOutstanding`; the Buffer Manager and the
system allocator behind `getBuffer` are summarised by `quantum` (the manager's
allocation quantum), `allocLimit` (the largest request the underlying
allocator can satisfy) and `nextAllocId` (fresh-allocation identity). -/
structure OutputPort where
  index : Int
  dtypeSize : Nat
  buffer : BufferChunk
  totalElements : Nat
  totalBuffers : Nat
  totalLabels : Nat
  totalMessages : Nat
  pendingElements : Nat
  reserveElements : Nat
  postedLabels : List Nat
  postedBuffers : List BufferChunk
  workEvents : Nat
  readBeforeWritePort : Option InputPortState
  pool : List BufferChunk
  quantum : Nat
  allocLimit : Nat
  nextAllocId : Nat
  tokenCapacity : Nat
  tokenCredits : Nat
  tokenOutstanding : Nat
deriving DecidableEq

/-- Modelled from the spec: construction of a port.  `idx = none` models a
port that cannot be represented by an integer index, stored as -1 per the
header's doc comment for `index()`.  The token pool starts full (`credits =
capacity`, no outstanding sends) and all counters at zero. -/
def mkOutputPort (idx : Option Nat) (dtypeSize quantum allocLimit tokenCapacity : Nat) :
    OutputPort :=
  { index := match idx with
      | none => -1
      | some i => (i : Int)
    dtypeSize := dtypeSize
    buffer := { allocId := 0, length := 0, elemSize := dtypeSize, data := [] }
    totalElements := 0
    totalBuffers := 0
    totalLabels := 0
    totalMessages := 0
    pendingElements := 0
    reserveElements := 0
    postedLabels := []
    postedBuffers := []
    workEvents := 0
    readBeforeWritePort := none
    pool := []
    quantum := quantum
    allocLimit := allocLimit
    nextAllocId := 1
    tokenCapacity := tokenCapacity
    tokenCredits := tokenCapacity
    tokenOutstanding := 0 }

/-- The header's `elements()`: "The number of elements is the available
bytes/dtype size" (OutputPort.hpp line 68). -/
def OutputPort.elements (s : OutputPort) : Nat :=
  s.buffer.length / s.dtypeSize

/-- Modelled from the spec: `produce(numElements)` (§4.2).  Requires
`numElements ≤ elements()`; commits the elements (an O(1) prefix drop of the
working buffer), increments total-elements by `numElements`, and marks
activity.  Per Scenario A the total-buffers counter is not incremented inside
the call itself (it increments at most once per call, at buffer refill).
Violating the precondition is a contract violation and leaves the port
unchanged. -/
def OutputPort.produce (s : OutputPort) (numElements : Nat) :
    OutputPort × Option PortError :=
  if numElements ≤ s.elements then
    ({ s with
        buffer := { s.buffer with
          length := s.buffer.length - numElements * s.dtypeSize
          data := s.buffer.data.drop (numElements * s.dtypeSize) }
        pendingElements := s.pendingElements + numElements
        totalElements := s.totalElements + numElements
        workEvents := s.workEvents + 1 }, none)
  else
    (s, some PortError.contractViolation)

/-- Modelled from the spec: `popElements(numElements)` (§4.2) — removes
elements from the front of the working buffer identically to `produce`, but
forwards nothing to subscribers and touches neither total-elements nor
total-buffers. -/
def OutputPort.popElements (s : OutputPort) (numElements : Nat) :
    OutputPort × Option PortError :=
  if numElements ≤ s.elements then
    ({ s with
        buffer := { s.buffer with
          length := s.buffer.length - numElements * s.dtypeSize
          data := s.buffer.data.drop (numElements * s.dtypeSize) }
        workEvents := s.workEvents + 1 }, none)
  else
    (s, some PortError.contractViolation)

/-- Modelled from the spec: the deprecated `popBuffer(numBytes)` "is defined
purely as `popElements(numBytes / elementSize)`" (§4.2). -/
def OutputPort.popBuffer (s : OutputPort) (numBytes : Nat) :
    OutputPort × Option PortError :=
  s.popElements (numBytes / s.dtypeSize)

/-- Modelled from the spec: the size actually requested from the underlying
allocator by a Buffer Manager checkout for `numElements` (§4.1): the manager's
configured quantum, falling back to an exact-size one-off allocation only when
the request exceeds the quantum. -/
def OutputPort.allocSize (s : OutputPort) (numElements : Nat) : Nat :=
  if numElements * s.dtypeSize ≤ s.quantum then s.quantum else numElements * s.dtypeSize

/-- Modelled from the spec: checkout of a fresh Managed Buffer from the Buffer
Manager (§4.1 step 3).  Fails with resource exhaustion exactly when the
underlying allocator cannot satisfy the request. -/
def OutputPort.managerCheckout (s : OutputPort) (numElements : Nat) :
    OutputPort × Except PortError BufferChunk :=
  if s.allocSize numElements ≤ s.allocLimit then
    ({ s with nextAllocId := s.nextAllocId + 1 },
      Except.ok
        { allocId := s.nextAllocId, length := s.allocSize numElements
          elemSize := s.dtypeSize
          data := List.replicate (s.allocSize numElements) 0 })
  else
    (s, Except.error PortError.resourceExhaustion)

/-- Modelled from the spec: normal buffer acquisition (§4.1 steps 2 and 3):
serve from the front of the Local Buffer Pool when the front chunk matches the
requested size, else checkout from the Buffer Manager.  Pool emptiness is not
an error — it triggers manager checkout. -/
def OutputPort.acquireFromPoolOrManager (s : OutputPort) (numElements : Nat) :
    OutputPort × Except PortError BufferChunk :=
  match s.pool with
  | c :: rest =>
    if numElements * s.dtypeSize ≤ c.length then
      ({ s with pool := rest }, Except.ok c)
    else
      s.managerCheckout numElements
  | [] => s.managerCheckout numElements

/-- The read-before-write donation precondition of §4.3: a link is configured,
the linked input port's chunk has exactly one outstanding reference, the
element sizes agree, and the held chunk satisfies the request. -/
def OutputPort.donationPrecond (s : OutputPort) (numElements : Nat) : Prop :=
  ∃ ip, s.readBeforeWritePort = some ip ∧ ip.refCount = 1 ∧
    ip.chunk.elemSize = s.dtypeSize ∧ numElements * s.dtypeSize ≤ ip.chunk.length

instance (s : OutputPort) (numElements : Nat) :
    Decidable (s.donationPrecond numElements) := by
  unfold OutputPort.donationPrecond
  cases s.readBeforeWritePort with
  | none => exact isFalse (by rintro ⟨ip, h, -⟩; cases h)
  | some ip =>
    refine decidable_of_iff
      (ip.refCount = 1 ∧ ip.chunk.elemSize = s.dtypeSize ∧
        numElements * s.dtypeSize ≤ ip.chunk.length) ?_
    constructor
    · rintro ⟨h1, h2, h3⟩; exact ⟨ip, rfl, h1, h2, h3⟩
    · rintro ⟨ip', h, h1, h2, h3⟩; cases h; exact ⟨h1, h2, h3⟩

/-- Modelled from the spec: `getBuffer(numElements)` (§4.1 and §4.3).
Resolution order: (1) read-before-write donation when its precondition holds —
the input port's chunk is returned as-is and the input port drops its
reference as part of the same operation; (2) otherwise the Local Buffer Pool /
Buffer Manager path.  A donation-precondition miss is silently skipped, never
an error. -/
def OutputPort.getBuffer (s : OutputPort) (numElements : Nat) :
    OutputPort × Except PortError BufferChunk :=
  match s.readBeforeWritePort with
  | some ip =>
    if ip.refCount = 1 ∧ ip.chunk.elemSize = s.dtypeSize ∧
        numElements * s.dtypeSize ≤ ip.chunk.length then
      ({ s with readBeforeWritePort := some { ip with refCount := 0 } },
        Except.ok ip.chunk)
    else
      s.acquireFromPoolOrManager numElements
  | none => s.acquireFromPoolOrManager numElements

/-- Modelled from the spec: a Token Manager credit checkout attempt (§4.4,
§5).  With a ready credit the send goes out (one more outstanding message);
with none the call stalls: the state is unchanged and the flag is `false`,
to be retried after a consumer releases a credit. -/
def OutputPort.trySendToken (s : OutputPort) : OutputPort × Bool :=
  if 0 < s.tokenCredits then
    ({ s with
        tokenCredits := s.tokenCredits - 1
        tokenOutstanding := s.tokenOutstanding + 1 }, true)
  else
    (s, false)

/-- Modelled from the spec: `postMessage(value)` (§4.2) — wraps the value
opaquely, increments total-messages by exactly one immediately upon the call
regardless of the credit outcome, and attempts to check out one Token Manager
credit.  The returned flag reports whether the send completed or stalled. -/
def OutputPort.postMessage (s : OutputPort) (message : Nat) : OutputPort × Bool :=
  let _ := message
  OutputPort.trySendToken { s with totalMessages := s.totalMessages + 1 }

/-- Modelled from the spec: a consumer finishing a message returns its Token
Manager credit (§4.4: checkout = send, release = downstream consumption). -/
def OutputPort.tokenRelease (s : OutputPort) : OutputPort :=
  if 0 < s.tokenOutstanding then
    { s with
        tokenCredits := s.tokenCredits + 1
        tokenOutstanding := s.tokenOutstanding - 1 }
  else
    s

/-- The Token Manager accounting invariant: every configured credit is either
ready or attached to an outstanding send. -/
def tokenInv (s : OutputPort) : Prop :=
  s.tokenCredits + s.tokenOutstanding = s.tokenCapacity

instance (s : OutputPort) : Decidable (tokenInv s) := by
  unfold tokenInv; infer_instance

/-- Modelled from the spec: `postLabel(label)` (§4.2) — appends to the pending
label list and increments total-labels immediately. -/
def OutputPort.postLabel (s : OutputPort) (label : Nat) : OutputPort :=
  { s with
      postedLabels := s.postedLabels ++ [label]
      totalLabels := s.totalLabels + 1
      workEvents := s.workEvents + 1 }

/-- Modelled from the spec: `postBuffer(chunk)` (§4.2) — forwards an external
chunk to subscribers as if produced; forwarded element count is
`chunk.length / elementSize`; increments total-buffers by one and
total-elements by the forwarded count. -/
def OutputPort.postBuffer (s : OutputPort) (chunk : BufferChunk) : OutputPort :=
  { s with
      postedBuffers := s.postedBuffers ++ [chunk]
      totalBuffers := s.totalBuffers + 1
      totalElements := s.totalElements + chunk.length / s.dtypeSize
      workEvents := s.workEvents + 1 }

/-- Modelled from the spec: `setReserve(numElements)` (§4.2) — records the
advisory reserve; changes nothing else. -/
def OutputPort.setReserve (s : OutputPort) (numElements : Nat) : OutputPort :=
  { s with reserveElements := numElements }

/-- Modelled from the spec: `setReadBeforeWrite(port)` (§4.3) — establishes
the donation link to an input port. -/
def OutputPort.setReadBeforeWrite (s : OutputPort) (port : InputPortState) : OutputPort :=
  { s with readBeforeWritePort := some port }

/-- Modelled from the spec: the Buffer Manager's pool accounting (§3, §4.4):
a FIFO of ready Managed Buffers plus a count of buffers currently checked
out; capacity may grow on demand up to a configured ceiling. -/
structure BufferManager where
  ready : Nat
  checkedOut : Nat
  capacity : Nat
  ceiling : Nat
deriving DecidableEq

/-- The Buffer Manager pool invariant of §3. -/
def BufferManager.inv (m : BufferManager) : Prop :=
  m.ready + m.checkedOut = m.capacity

instance (m : BufferManager) : Decidable m.inv := by
  unfold BufferManager.inv; infer_instance

/-- Modelled from the spec: Buffer Manager checkout (§4.4) — pop from the
ready FIFO; on checkout-from-empty the manager may allocate a new unit up to
the ceiling; beyond the ceiling the checkout stalls (flag `false`). -/
def BufferManager.checkout (m : BufferManager) : BufferManager × Bool :=
  if 0 < m.ready then
    ({ m with ready := m.ready - 1, checkedOut := m.checkedOut + 1 }, true)
  else if m.capacity < m.ceiling then
    ({ m with capacity := m.capacity + 1, checkedOut := m.checkedOut + 1 }, true)
  else
    (m, false)

/-- Modelled from the spec: Buffer Manager release (§4.4) — a consumer pushes
a returned buffer back onto the ready FIFO. -/
def BufferManager.release (m : BufferManager) : BufferManager :=
  if 0 < m.checkedOut then
    { m with ready := m.ready + 1, checkedOut := m.checkedOut - 1 }
  else
    m

/-- Iterated `postMessage` (always posting the opaque message 0), used to
state Scenario B of §8. -/
def postMsgIter (s : OutputPort) : Nat → OutputPort
  | 0 => s
  | n + 1 => ((postMsgIter s n).postMessage 0).1

/-- Whether each of the first `n` iterated `postMessage` calls completed
without stalling. -/
def postMsgAllSent (s : OutputPort) : Nat → Bool
  | 0 => true
  | n + 1 => postMsgAllSent s n && ((postMsgIter s n).postMessage 0).2

/-! ### Shared helper lemmas and sample states -/

/-- Dropping `n * e` bytes from a buffer of `len` bytes removes exactly `n`
elements of size `e`, as long as `n` elements were available. -/
lemma sub_mul_div_add (len e n : Nat) (h : n ≤ len / e) :
    (len - n * e) / e + n = len / e := by
  rcases Nat.eq_zero_or_pos e with he | he
  · subst he
    simp only [Nat.div_zero, Nat.le_zero] at h
    simp [Nat.div_zero, h]
  · have h1 : n * e ≤ len :=
      le_trans (Nat.mul_le_mul_right e h) (Nat.div_mul_le_self len e)
    calc (len - n * e) / e + n
        = ((len - n * e) + n * e) / e := (Nat.add_mul_div_right _ _ he).symm
      _ = len / e := by rw [Nat.sub_add_cancel h1]

/-- Reduction of `popElements` in the in-contract case. -/
lemma popElements_pos (s : OutputPort) (n : Nat) (h : n ≤ s.elements) :
    s.popElements n =
      ({ s with
          buffer := { s.buffer with
            length := s.buffer.length - n * s.dtypeSize
            data := s.buffer.data.drop (n * s.dtypeSize) }
          workEvents := s.workEvents + 1 }, none) := by
  simp only [OutputPort.popElements, if_pos h]

/-- Reduction of `produce` in the in-contract case. -/
lemma produce_pos (s : OutputPort) (n : Nat) (h : n ≤ s.elements) :
    s.produce n =
      ({ s with
          buffer := { s.buffer with
            length := s.buffer.length - n * s.dtypeSize
            data := s.buffer.data.drop (n * s.dtypeSize) }
          pendingElements := s.pendingElements + n
          totalElements := s.totalElements + n
          workEvents := s.workEvents + 1 }, none) := by
  simp only [OutputPort.produce, if_pos h]

/-- A sample stream port holding a 12-byte working buffer of 4-byte elements
(3 elements available), used by the concrete witnesses. -/
def sampleStreamPort : OutputPort :=
  { mkOutputPort (some 0) 4 16 16 4 with
      buffer :=
        { allocId := 5, length := 12, elemSize := 4
          data := [0, 1, 2, 3, 4, 5, 6, 7, 8, 9, 10, 11] } }

/-! ### Claims -/

/-- C1: for every `n ≤ elements()`, `produce(n)` succeeds, increases
`totalElements` by exactly `n`, increases `totalBuffers` by 0 or 1, and
decreases the value subsequently returned by `elements()` by exactly `n`. -/
theorem produce_increments_counters (s : OutputPort) (n : Nat)
    (h : n ≤ s.elements) :
    (s.produce n).2 = none ∧
    (s.produce n).1.totalElements = s.totalElements + n ∧
    ((s.produce n).1.totalBuffers = s.totalBuffers ∨
      (s.produce n).1.totalBuffers = s.totalBuffers + 1) ∧
    (s.produce n).1.elements + n = s.elements := by
  rw [produce_pos s n h]
  refine ⟨rfl, rfl, Or.inl rfl, ?_⟩
  simpa [OutputPort.elements] using
    sub_mul_div_add s.buffer.length s.dtypeSize n h

/-- Witness for C1 at a concrete port: 2 of the 3 available elements are
produced, the counters move as claimed and one element remains. -/
theorem produce_increments_counters_witness :
    2 ≤ sampleStreamPort.elements ∧
    (sampleStreamPort.produce 2).1.totalElements =
      sampleStreamPort.totalElements + 2 ∧
    (sampleStreamPort.produce 2).1.elements + 2 = sampleStreamPort.elements :=
  ⟨by decide,
    (produce_increments_counters sampleStreamPort 2 (by decide)).2.1,
    (produce_increments_counters sampleStreamPort 2 (by decide)).2.2.2⟩

/-- C2: `produce(n)` with `n > elements()` fails with a contract-violation
condition and leaves every piece of observable port state (the whole port
state, hence the working buffer, `elements()`, the counters, and the pending
labels and buffers) unchanged. -/
theorem produce_contract_violation (s : OutputPort) (n : Nat)
    (h : s.elements < n) :
    (s.produce n).1 = s ∧
    (s.produce n).2 = some PortError.contractViolation := by
  have hred : s.produce n = (s, some PortError.contractViolation) := by
    simp only [OutputPort.produce, if_neg (Nat.not_le.mpr h)]
  rw [hred]
  exact ⟨rfl, rfl⟩

/-- Witness for C2: asking for 5 elements when only 3 are available fails and
leaves the port untouched. -/
theorem produce_contract_violation_witness :
    sampleStreamPort.elements < 5 ∧
    (sampleStreamPort.produce 5).1 = sampleStreamPort ∧
    (sampleStreamPort.produce 5).2 = some PortError.contractViolation :=
  ⟨by decide,
    (produce_contract_violation sampleStreamPort 5 (by decide)).1,
    (produce_contract_violation sampleStreamPort 5 (by decide)).2⟩

/-- C7: for every `n ≤ elements()`, `popElements(n)` succeeds and decreases
`elements()` by exactly `n` while forwarding nothing to subscribers (the
pending-element count and posted-buffer queue are untouched) and leaving
`totalElements` and `totalBuffers` unchanged; and `popBuffer(numBytes)` is
exactly `popElements(numBytes / elementSize)`. -/
theorem popElements_frame (s : OutputPort) (n : Nat) (h : n ≤ s.elements) :
    (s.popElements n).2 = none ∧
    (s.popElements n).1.elements + n = s.elements ∧
    (s.popElements n).1.totalElements = s.totalElements ∧
    (s.popElements n).1.totalBuffers = s.totalBuffers ∧
    (s.popElements n).1.pendingElements = s.pendingElements ∧
    (s.popElements n).1.postedBuffers = s.postedBuffers ∧
    ∀ (t : OutputPort) (numBytes : Nat),
      t.popBuffer numBytes = t.popElements (numBytes / t.dtypeSize) := by
  rw [popElements_pos s n h]
  refine ⟨rfl, ?_, rfl, rfl, rfl, rfl, fun t numBytes => rfl⟩
  simpa [OutputPort.elements] using
    sub_mul_div_add s.buffer.length s.dtypeSize n h

/-- Witness for C7: popping 2 of the 3 available elements leaves 1 element
and both cumulative counters unchanged. -/
theorem popElements_frame_witness :
    2 ≤ sampleStreamPort.elements ∧
    (sampleStreamPort.popElements 2).1.elements + 2 = sampleStreamPort.elements ∧
    (sampleStreamPort.popElements 2).1.totalElements =
      sampleStreamPort.totalElements ∧
    (sampleStreamPort.popElements 2).1.totalBuffers =
      sampleStreamPort.totalBuffers :=
  ⟨by decide,
    (popElements_frame sampleStreamPort 2 (by decide)).2.1,
    (popElements_frame sampleStreamPort 2 (by decide)).2.2.1,
    (popElements_frame sampleStreamPort 2 (by decide)).2.2.2.1⟩

/-- C10: under the header's precondition that `numBytes` is at most the bytes
available and a whole multiple of the element size, `popBuffer(numBytes)`
succeeds and removes exactly `numBytes` bytes from the working buffer — the
integer division `numBytes / elementSize` loses nothing. -/
theorem popBuffer_exact (s : OutputPort) (numBytes : Nat)
    (he : 0 < s.dtypeSize) (hdvd : s.dtypeSize ∣ numBytes)
    (hle : numBytes ≤ s.buffer.length) :
    (s.popBuffer numBytes).2 = none ∧
    (s.popBuffer numBytes).1.buffer.length + numBytes = s.buffer.length := by
  obtain ⟨q, hq⟩ := hdvd
  have hdiv : numBytes / s.dtypeSize = q := by
    rw [hq, Nat.mul_div_cancel_left q he]
  have hmul : q * s.dtypeSize ≤ s.buffer.length := by
    rw [Nat.mul_comm q s.dtypeSize, ← hq]; exact hle
  have hqle : q ≤ s.elements := (Nat.le_div_iff_mul_le he).mpr hmul
  have hred : s.popBuffer numBytes = s.popElements q := by
    unfold OutputPort.popBuffer; rw [hdiv]
  rw [hred, popElements_pos s q hqle]
  refine ⟨rfl, ?_⟩
  show s.buffer.length - q * s.dtypeSize + numBytes = s.buffer.length
  rw [Nat.mul_comm q s.dtypeSize, ← hq]
  exact Nat.sub_add_cancel hle

/-- Witness for C10: removing 8 bytes (two 4-byte elements) from the 12-byte
sample buffer removes exactly 8 bytes. -/
theorem popBuffer_exact_witness :
    0 < sampleStreamPort.dtypeSize ∧
    sampleStreamPort.dtypeSize ∣ 8 ∧
    8 ≤ sampleStreamPort.buffer.length ∧
    (sampleStreamPort.popBuffer 8).1.buffer.length + 8 =
      sampleStreamPort.buffer.length :=
  ⟨by decide, by decide, by decide,
    (popBuffer_exact sampleStreamPort 8 (by decide) (by decide) (by decide)).2⟩

/-- C5: every call to `postMessage` increments `totalMessages` by exactly one
immediately, whichever way the Token Manager credit checkout goes. -/
theorem postMessage_increments_totalMessages (s : OutputPort) (message : Nat) :
    (s.postMessage message).1.totalMessages = s.totalMessages + 1 := by
  unfold OutputPort.postMessage OutputPort.trySendToken
  dsimp only
  split <;> rfl

/-- The concrete port of Scenario B (§8): Token Manager capacity 4. -/
def scenarioBPort : OutputPort := mkOutputPort none 4 16 16 4

/-- C6: outstanding asynchronous sends never exceed the configured token
capacity: the token accounting invariant holds at construction, is preserved
by `postMessage` and by a consumer's credit release, and bounds the
outstanding count by the capacity.  Scenario B: with capacity 4, four
consecutive `postMessage` calls complete immediately consuming all 4 credits
(`totalMessages = 4`), a fifth call stalls without exceeding the capacity,
and completes once a consumer releases a credit. -/
theorem token_backpressure (s : OutputPort) (h : tokenInv s) :
    s.tokenOutstanding ≤ s.tokenCapacity ∧
    (∀ message, tokenInv (s.postMessage message).1) ∧
    tokenInv s.tokenRelease ∧
    (∀ idx d q a c, tokenInv (mkOutputPort idx d q a c)) ∧
    postMsgAllSent scenarioBPort 4 = true ∧
    (postMsgIter scenarioBPort 4).totalMessages = 4 ∧
    (postMsgIter scenarioBPort 4).tokenCredits = 0 ∧
    ((postMsgIter scenarioBPort 4).postMessage 0).2 = false ∧
    ((postMsgIter scenarioBPort 4).postMessage 0).1.tokenOutstanding = 4 ∧
    (((postMsgIter scenarioBPort 4).postMessage 0).1.tokenRelease.trySendToken).2
      = true := by
  unfold tokenInv at h
  refine ⟨by omega, ?_, ?_, ?_, by decide, by decide, by decide, by decide,
    by decide, by decide⟩
  · intro message
    unfold OutputPort.postMessage OutputPort.trySendToken tokenInv
    dsimp only
    split <;> dsimp only <;> omega
  · unfold OutputPort.tokenRelease tokenInv
    split
    · dsimp only; omega
    · omega
  · intro idx d q a c
    exact rfl

/-- Witness for C6 at the Scenario B port, whose token pool starts full. -/
theorem token_backpressure_witness :
    tokenInv scenarioBPort ∧
    scenarioBPort.tokenOutstanding ≤ scenarioBPort.tokenCapacity ∧
    tokenInv (scenarioBPort.postMessage 0).1 :=
  ⟨by decide, (token_backpressure scenarioBPort (by decide)).1,
    (token_backpressure scenarioBPort (by decide)).2.1 0⟩

/-- A sample Buffer Manager pool: 2 ready buffers, 1 checked out, capacity 3,
ceiling 4. -/
def sampleManager : BufferManager := { ready := 2, checkedOut := 1, capacity := 3, ceiling := 4 }

/-- C8: the Buffer Manager invariant `ready + checked_out = pool_capacity` is
preserved by every checkout (pop from the ready FIFO, growing on demand) and
every release (push back onto the ready FIFO), and growth never passes the
configured ceiling. -/
theorem bufferManager_invariant (m : BufferManager) (h : m.inv) :
    (m.checkout).1.inv ∧
    m.release.inv ∧
    (m.capacity ≤ m.ceiling → (m.checkout).1.capacity ≤ m.ceiling) := by
  unfold BufferManager.inv at h
  refine ⟨?_, ?_, ?_⟩
  · unfold BufferManager.inv BufferManager.checkout
    split
    · dsimp only; omega
    · split <;> dsimp only <;> omega
  · unfold BufferManager.inv BufferManager.release
    split
    · dsimp only; omega
    · omega
  · intro hc
    unfold BufferManager.checkout
    split
    · dsimp only; omega
    · split <;> dsimp only <;> omega

/-- Witness for C8 at the sample manager (2 + 1 = 3). -/
theorem bufferManager_invariant_witness :
    sampleManager.inv ∧
    (sampleManager.checkout).1.inv ∧
    sampleManager.release.inv ∧
    (sampleManager.capacity ≤ sampleManager.ceiling →
      (sampleManager.checkout).1.capacity ≤ sampleManager.ceiling) :=
  ⟨by decide,
    (bufferManager_invariant sampleManager (by decide)).1,
    (bufferManager_invariant sampleManager (by decide)).2.1,
    (bufferManager_invariant sampleManager (by decide)).2.2⟩

/-! ### Buffer acquisition helper lemmas -/

/-- The allocator request of a manager checkout always covers the element
request (quantum or exact size, whichever applies). -/
lemma le_allocSize (s : OutputPort) (k : Nat) :
    k * s.dtypeSize ≤ s.allocSize k := by
  unfold OutputPort.allocSize
  split <;> omega

/-- A manager checkout either succeeds (the allocator can satisfy the
request) with a fresh chunk of `allocSize` bytes, or fails with resource
exhaustion because the allocator cannot. -/
lemma managerCheckout_cases (s : OutputPort) (k : Nat) :
    (s.allocSize k ≤ s.allocLimit ∧
      s.managerCheckout k =
        ({ s with nextAllocId := s.nextAllocId + 1 },
          Except.ok
            { allocId := s.nextAllocId, length := s.allocSize k
              elemSize := s.dtypeSize
              data := List.replicate (s.allocSize k) 0 })) ∨
    (s.allocLimit < s.allocSize k ∧
      s.managerCheckout k = (s, Except.error PortError.resourceExhaustion)) := by
  unfold OutputPort.managerCheckout
  split
  · exact Or.inl ⟨by assumption, rfl⟩
  · exact Or.inr ⟨by omega, rfl⟩

/-- Normal acquisition either serves a matching chunk from the front of the
local pool or defers to the Buffer Manager. -/
lemma acquire_cases (s : OutputPort) (k : Nat) :
    (∃ c rest, s.pool = c :: rest ∧ k * s.dtypeSize ≤ c.length ∧
      s.acquireFromPoolOrManager k = ({ s with pool := rest }, Except.ok c)) ∨
    s.acquireFromPoolOrManager k = s.managerCheckout k := by
  unfold OutputPort.acquireFromPoolOrManager
  cases hp : s.pool with
  | nil => exact Or.inr rfl
  | cons c rest =>
    dsimp only
    split
    · exact Or.inl ⟨c, rest, rfl, by assumption, rfl⟩
    · exact Or.inr rfl

/-- Any chunk successfully delivered by normal acquisition covers the
request. -/
lemma acquire_ok_length (s : OutputPort) (k : Nat) (s' : OutputPort)
    (c : BufferChunk)
    (heq : s.acquireFromPoolOrManager k = (s', Except.ok c)) :
    k * s.dtypeSize ≤ c.length := by
  rcases acquire_cases s k with ⟨c0, rest, hp, hlen, hacq⟩ | hacq
  · rw [hacq] at heq
    simp only [Prod.mk.injEq, Except.ok.injEq] at heq
    obtain ⟨-, hc⟩ := heq
    subst hc
    exact hlen
  · rw [hacq] at heq
    rcases managerCheckout_cases s k with ⟨hle, hmc⟩ | ⟨hlt, hmc⟩
    · rw [hmc] at heq
      simp only [Prod.mk.injEq, Except.ok.injEq] at heq
      obtain ⟨-, hc⟩ := heq
      subst hc
      exact le_allocSize s k
    · rw [hmc] at heq
      simp only [Prod.mk.injEq] at heq
      exact Except.noConfusion heq.2

/-- Normal acquisition fails only with resource exhaustion, and only because
the allocator cannot satisfy the request. -/
lemma acquire_error (s : OutputPort) (k : Nat) (s' : OutputPort) (e : PortError)
    (heq : s.acquireFromPoolOrManager k = (s', Except.error e)) :
    e = PortError.resourceExhaustion ∧ s.allocLimit < s.allocSize k := by
  rcases acquire_cases s k with ⟨c0, rest, hp, hlen, hacq⟩ | hacq
  · rw [hacq] at heq
    simp only [Prod.mk.injEq] at heq
    exact Except.noConfusion heq.2
  · rw [hacq] at heq
    rcases managerCheckout_cases s k with ⟨hle, hmc⟩ | ⟨hlt, hmc⟩
    · rw [hmc] at heq
      simp only [Prod.mk.injEq] at heq
      exact Except.noConfusion heq.2
    · rw [hmc] at heq
      simp only [Prod.mk.injEq, Except.error.injEq] at heq
      exact ⟨heq.2.symm, hlt⟩

/-- With an empty pool, acquisition still succeeds whenever the allocator
can satisfy the manager's request. -/
lemma acquire_ok_of_empty_pool (s : OutputPort) (k : Nat) (hp : s.pool = [])
    (hle : s.allocSize k ≤ s.allocLimit) :
    ∃ s' c, s.acquireFromPoolOrManager k = (s', Except.ok c) ∧
      k * s.dtypeSize ≤ c.length := by
  rcases acquire_cases s k with ⟨c0, rest, hp0, -, -⟩ | hacq
  · rw [hp] at hp0
    exact List.noConfusion hp0
  · rcases managerCheckout_cases s k with ⟨-, hmc⟩ | ⟨hlt, -⟩
    · exact ⟨_, _, by rw [hacq, hmc], le_allocSize s k⟩
    · omega

/-- When the donation precondition of §4.3 holds, `getBuffer` returns the
linked input port's chunk as-is and zeroes that port's reference count. -/
lemma getBuffer_donation_eq (s : OutputPort) (ip : InputPortState) (k : Nat)
    (hrb : s.readBeforeWritePort = some ip) (h1 : ip.refCount = 1)
    (h2 : ip.chunk.elemSize = s.dtypeSize)
    (h3 : k * s.dtypeSize ≤ ip.chunk.length) :
    s.getBuffer k =
      ({ s with readBeforeWritePort := some { ip with refCount := 0 } },
        Except.ok ip.chunk) := by
  unfold OutputPort.getBuffer
  rw [hrb]
  dsimp only
  rw [if_pos ⟨h1, h2, h3⟩]

/-- When the donation precondition does not hold, `getBuffer` is exactly
normal acquisition — the miss is silently skipped. -/
lemma getBuffer_skip_eq (s : OutputPort) (k : Nat)
    (h : ¬ s.donationPrecond k) :
    s.getBuffer k = s.acquireFromPoolOrManager k := by
  unfold OutputPort.getBuffer
  cases hrb : s.readBeforeWritePort with
  | none => rfl
  | some ip =>
    dsimp only
    rw [if_neg fun hc => h ⟨ip, hrb, hc.1, hc.2.1, hc.2.2⟩]

/-- C4: `getBuffer(k)` only ever returns chunks of at least
`k × elementSize` bytes; it fails only with resource exhaustion, and only
because the underlying allocator cannot satisfy the manager's request; and an
empty local pool alone never causes failure — with the allocator able to
serve the manager's request, acquisition from an empty pool succeeds. -/
theorem getBuffer_capacity (s : OutputPort) (k : Nat) :
    (∀ s' c, s.getBuffer k = (s', Except.ok c) →
      k * s.dtypeSize ≤ c.length) ∧
    (∀ s' e, s.getBuffer k = (s', Except.error e) →
      e = PortError.resourceExhaustion ∧ s.allocLimit < s.allocSize k) ∧
    (s.pool = [] → s.allocSize k ≤ s.allocLimit →
      ∃ s' c, s.getBuffer k = (s', Except.ok c) ∧
        k * s.dtypeSize ≤ c.length) := by
  by_cases hd : s.donationPrecond k
  · obtain ⟨ip, hrb, h1, h2, h3⟩ := hd
    have hdon := getBuffer_donation_eq s ip k hrb h1 h2 h3
    refine ⟨?_, ?_, ?_⟩
    · intro s' c heq
      rw [hdon] at heq
      simp only [Prod.mk.injEq, Except.ok.injEq] at heq
      obtain ⟨-, hc⟩ := heq
      subst hc
      exact h3
    · intro s' e heq
      rw [hdon] at heq
      simp only [Prod.mk.injEq] at heq
      exact Except.noConfusion heq.2
    · intro hp hle
      exact ⟨_, _, hdon, h3⟩
  · have hskip := getBuffer_skip_eq s k hd
    refine ⟨?_, ?_, ?_⟩
    · intro s' c heq
      rw [hskip] at heq
      exact acquire_ok_length s k s' c heq
    · intro s' e heq
      rw [hskip] at heq
      exact acquire_error s k s' e heq
    · intro hp hle
      obtain ⟨s', c, hacq, hlen⟩ := acquire_ok_of_empty_pool s k hp hle
      exact ⟨s', c, by rw [hskip, hacq], hlen⟩

/-- C3: given an input port link whose chunk has exactly one outstanding
reference and a matching element size, `getBuffer(S / elementSize)` for the
chunk's byte size `S` yields that very chunk (hence identical bytes and the
same underlying allocation), and afterwards the input port's reference count
is zero; whenever any donation precondition fails, `getBuffer` silently falls
back to normal acquisition, whose only error is the allocator's resource
exhaustion — never a donation-related one. -/
theorem getBuffer_donation_roundtrip (s : OutputPort) (ip : InputPortState)
    (hrb : s.readBeforeWritePort = some ip) (href : ip.refCount = 1)
    (helem : ip.chunk.elemSize = s.dtypeSize) :
    (s.getBuffer (ip.chunk.length / s.dtypeSize)).2 = Except.ok ip.chunk ∧
    (∀ c, (s.getBuffer (ip.chunk.length / s.dtypeSize)).2 = Except.ok c →
      c.data = ip.chunk.data ∧ c.allocId = ip.chunk.allocId) ∧
    (s.getBuffer (ip.chunk.length / s.dtypeSize)).1.readBeforeWritePort =
      some { ip with refCount := 0 } ∧
    (∀ (t : OutputPort) (k : Nat), ¬ t.donationPrecond k →
      t.getBuffer k = t.acquireFromPoolOrManager k) ∧
    (∀ (t : OutputPort) (k : Nat) (t' : OutputPort) (e : PortError),
      t.acquireFromPoolOrManager k = (t', Except.error e) →
      e = PortError.resourceExhaustion) := by
  have h3 : ip.chunk.length / s.dtypeSize * s.dtypeSize ≤ ip.chunk.length :=
    Nat.div_mul_le_self _ _
  have hdon := getBuffer_donation_eq s ip _ hrb href helem h3
  rw [hdon]
  refine ⟨rfl, ?_, rfl, fun t k h => getBuffer_skip_eq t k h,
    fun t k t' e heq => (acquire_error t k t' e heq).1⟩
  intro c hc
  have hc' : (Except.ok ip.chunk : Except PortError BufferChunk) = Except.ok c := hc
  obtain rfl := Except.ok.inj hc'
  exact ⟨rfl, rfl⟩

/-- A port with an empty pool whose allocator can satisfy the 8-byte quantum
request. -/
def freshPort : OutputPort := mkOutputPort none 1 8 8 0

/-- A port whose allocator cannot satisfy the 8-byte quantum request. -/
def starvedPort : OutputPort := mkOutputPort none 1 8 4 0

/-- Witness for C4: on `freshPort` a request for 3 one-byte elements yields a
quantum-sized 8-byte chunk; on `starvedPort` the same request fails with
resource exhaustion because the allocator tops out at 4 bytes. -/
theorem getBuffer_capacity_witness :
    3 * freshPort.dtypeSize ≤ 8 ∧
    (PortError.resourceExhaustion = PortError.resourceExhaustion ∧
      starvedPort.allocLimit < starvedPort.allocSize 3) ∧
    (∃ s' c, freshPort.getBuffer 3 = (s', Except.ok c) ∧
      3 * freshPort.dtypeSize ≤ c.length) :=
  ⟨(getBuffer_capacity freshPort 3).1 { freshPort with nextAllocId := 2 }
      { allocId := 1, length := 8, elemSize := 1, data := List.replicate 8 0 }
      rfl,
    (getBuffer_capacity starvedPort 3).2.1 starvedPort
      PortError.resourceExhaustion rfl,
    (getBuffer_capacity freshPort 3).2.2 rfl (by decide)⟩

/-- The donated chunk, input-port link and donor port of the C3 witness:
an 8-byte sole-referenced chunk of 4-byte elements on a port with element
size 4. -/
def donorChunk : BufferChunk :=
  { allocId := 7, length := 8, elemSize := 4, data := [1, 2, 3, 4, 5, 6, 7, 8] }

def donorInput : InputPortState := { chunk := donorChunk, refCount := 1 }

def donorPort : OutputPort :=
  (mkOutputPort (some 1) 4 16 16 0).setReadBeforeWrite donorInput

/-- Witness for C3: the donor port's `getBuffer (8 / 4)` yields exactly the
input port's chunk and drops its reference count to zero. -/
theorem getBuffer_donation_roundtrip_witness :
    donorPort.readBeforeWritePort = some donorInput ∧
    donorInput.refCount = 1 ∧
    donorInput.chunk.elemSize = donorPort.dtypeSize ∧
    (donorPort.getBuffer (donorInput.chunk.length / donorPort.dtypeSize)).2 =
      Except.ok donorInput.chunk ∧
    (donorPort.getBuffer
        (donorInput.chunk.length / donorPort.dtypeSize)).1.readBeforeWritePort =
      some { donorInput with refCount := 0 } :=
  ⟨rfl, rfl, rfl,
    (getBuffer_donation_roundtrip donorPort donorInput rfl rfl rfl).1,
    (getBuffer_donation_roundtrip donorPort donorInput rfl rfl rfl).2.2.1⟩

/-! ### Index immutability -/

lemma managerCheckout_index (s : OutputPort) (k : Nat) :
    (s.managerCheckout k).1.index = s.index := by
  unfold OutputPort.managerCheckout
  split <;> rfl

lemma acquire_index (s : OutputPort) (k : Nat) :
    (s.acquireFromPoolOrManager k).1.index = s.index := by
  rcases acquire_cases s k with ⟨c, rest, hp, hlen, hacq⟩ | hacq
  · rw [hacq]
  · rw [hacq]
    exact managerCheckout_index s k

/-- C9: `index()` returns -1 exactly when the port was constructed without a
representable integer index, returns the configured index otherwise, and is
changed by none of the port's operations after construction. -/
theorem index_immutable :
    (∀ idx d q a c, (mkOutputPort idx d q a c).index = -1 ↔ idx = none) ∧
    (∀ i d q a c, (mkOutputPort (some i) d q a c).index = (i : Int)) ∧
    (∀ (s : OutputPort) n, (s.produce n).1.index = s.index) ∧
    (∀ (s : OutputPort) n, (s.popElements n).1.index = s.index) ∧
    (∀ (s : OutputPort) n, (s.popBuffer n).1.index = s.index) ∧
    (∀ (s : OutputPort) n, (s.getBuffer n).1.index = s.index) ∧
    (∀ (s : OutputPort) m, (s.postMessage m).1.index = s.index) ∧
    (∀ (s : OutputPort), s.trySendToken.1.index = s.index) ∧
    (∀ (s : OutputPort), s.tokenRelease.index = s.index) ∧
    (∀ (s : OutputPort) l, (s.postLabel l).index = s.index) ∧
    (∀ (s : OutputPort) c, (s.postBuffer c).index = s.index) ∧
    (∀ (s : OutputPort) n, (s.setReserve n).index = s.index) ∧
    (∀ (s : OutputPort) p, (s.setReadBeforeWrite p).index = s.index) := by
  refine ⟨?_, ?_, ?_, ?_, ?_, ?_, ?_, ?_, ?_, ?_, ?_, ?_, ?_⟩
  · intro idx d q a c
    cases idx with
    | none => simp [mkOutputPort]
    | some i =>
      simp only [mkOutputPort]
      constructor
      · intro hi
        exact absurd hi (by omega)
      · intro hi
        exact Option.noConfusion hi
  · intro i d q a c
    rfl
  · intro s n
    unfold OutputPort.produce
    split <;> rfl
  · intro s n
    unfold OutputPort.popElements
    split <;> rfl
  · intro s n
    unfold OutputPort.popBuffer OutputPort.popElements
    split <;> rfl
  · intro s n
    by_cases hd : s.donationPrecond n
    · obtain ⟨ip, hrb, h1, h2, h3⟩ := hd
      rw [getBuffer_donation_eq s ip n hrb h1 h2 h3]
    · rw [getBuffer_skip_eq s n hd]
      exact acquire_index s n
  · intro s m
    unfold OutputPort.postMessage OutputPort.trySendToken
    dsimp only
    split <;> rfl
  · intro s
    unfold OutputPort.trySendToken
    split <;> rfl
  · intro s
    unfold OutputPort.tokenRelease
    split <;> rfl
  · intro s l
    rfl
  · intro s c
    rfl
  · intro s n
    rfl
  · intro s p
    rfl

end PothosSpec
